import Mathlib

/-!
Verification of the metric-computation core of the Data_Quality_check service
(`src/main.py`, `src/services/*.py`) against its natural-language specification.

The table model is a shallow embedding of the pandas DataFrames consumed by the
services: a table is an ordered association list of named columns, a column is a
list of cells, and a cell is a numeric value (exact rational, standing for the
float the code manipulates), a text value, a timestamp (epoch seconds, standing
for a value that `pd.to_datetime` parses; unparseable text stays a `txt` cell),
or the uniform missing marker (NaN/NaT/None).

Float arithmetic of the source is modelled by exact rational arithmetic plus an
explicit non-finite element (`PFloat.nan`, covering the NaN and infinity cases
that the claims are about, with comments at each use site where the collapse of
NaN and infinity is justified).  Python's `round(x, 2)` is modelled exactly as
round-half-to-even at two decimals (`round2`).
-/

/-- A single table cell: numeric, text, timestamp (epoch seconds), or missing.
`dtv t` stands for any raw value that `pd.to_datetime` parses to the timestamp
`t`; a `txt` cell stands for text that it cannot parse. -/
inductive Cell where
  | num : ℚ → Cell
  | txt : String → Cell
  | dtv : ℚ → Cell
  | missing : Cell
deriving DecidableEq

abbrev Col := List Cell

/-- A DataFrame: ordered named columns (names unique in well-formed tables). -/
structure Df where
  cols : List (String × Col)
deriving DecidableEq

def Cell.isMissing : Cell → Bool
  | .missing => true
  | _ => false

def Cell.toNum : Cell → Option ℚ
  | .num q => some q
  | _ => none

def Cell.isTxt : Cell → Bool
  | .txt _ => true
  | _ => false

/-- `pd.to_datetime(·, errors='coerce')` on one cell: timestamps parse to
themselves, numeric values are converted (pandas interprets them as epoch
offsets; the unit is abstracted), text cells model unparseable values, missing
becomes NaT. -/
def parseDT : Cell → Option ℚ
  | .dtv t => some t
  | .num q => some q
  | _ => none

def Cell.getDt : Cell → Option ℚ
  | .dtv t => some t
  | _ => none

/-- Column lookup, `df[name]`: first column with the given name. -/
def getA : List (String × Col) → String → Option Col
  | [], _ => none
  | (k, v) :: rest, c => if k = c then some v else getA rest c

/-- Column assignment, `df[name] = v`: replace the first column with the given
name, append a new column if absent. -/
def setA : List (String × Col) → String → Col → List (String × Col)
  | [], c, v => [(c, v)]
  | (k, w) :: rest, c, v => if k = c then (k, v) :: rest else (k, w) :: setA rest c v

def Df.get (df : Df) (c : String) : Option Col := getA df.cols c

def Df.set (df : Df) (c : String) (v : Col) : Df := ⟨setA df.cols c v⟩

/-- `df.size`: total number of cells. -/
def Df.totalCells (df : Df) : ℕ := (df.cols.map (fun p => p.2.length)).sum

/-- `df.isnull().sum().sum()`: total number of missing cells. -/
def Df.missingCells (df : Df) : ℕ := (df.cols.map (fun p => p.2.countP Cell.isMissing)).sum

/-- `len(df)`: the row count (length of the first column; 0 for no columns). -/
def Df.rowCount : Df → ℕ
  | ⟨[]⟩ => 0
  | ⟨c :: _⟩ => c.2.length

/-- A float value: either finite (exact rational) or non-finite.  `nan` stands
for the NaN (and, where noted, infinite) results of degenerate float
arithmetic such as `0/0`. -/
inductive PFloat where
  | fin : ℚ → PFloat
  | nan : PFloat
deriving DecidableEq

/-- Float division.  `a/0` is non-finite (NaN when `a = 0`, ±inf otherwise;
both collapse to `nan`, which is justified at each use site). -/
def PFloat.divP : PFloat → PFloat → PFloat
  | .fin a, .fin b => if b = 0 then .nan else .fin (a / b)
  | _, _ => .nan

def PFloat.mulQ : PFloat → ℚ → PFloat
  | .fin a, c => .fin (a * c)
  | .nan, _ => .nan

def PFloat.subP : PFloat → PFloat → PFloat
  | .fin a, .fin b => .fin (a - b)
  | _, _ => .nan

def PFloat.addP : PFloat → PFloat → PFloat
  | .fin a, .fin b => .fin (a + b)
  | _, _ => .nan

/-- `x > c` on a float: NaN comparisons are false. -/
def PFloat.gtQ : PFloat → ℚ → Bool
  | .fin a, c => decide (c < a)
  | .nan, _ => false

/-- Python `round` to the nearest integer, half to even (banker's rounding). -/
def roundHE (q : ℚ) : ℤ :=
  if q - ⌊q⌋ < 1/2 then ⌊q⌋
  else if 1/2 < q - ⌊q⌋ then ⌊q⌋ + 1
  else if ⌊q⌋ % 2 = 0 then ⌊q⌋ else ⌊q⌋ + 1

/-- Python `round(q, 2)`. -/
def round2 (q : ℚ) : ℚ := (roundHE (q * 100) : ℚ) / 100

def PFloat.round2P : PFloat → PFloat
  | .fin a => .fin (round2 a)
  | .nan => .nan

/- ### Generic rounding lemmas -/

theorem roundHE_le_int (q : ℚ) (n : ℤ) (h : q ≤ (n : ℚ)) : roundHE q ≤ n := by
  have hfl : ⌊q⌋ ≤ n := by
    have := Int.floor_le_floor h
    simpa using this
  unfold roundHE
  split
  · exact hfl
  · have hhalf : (1:ℚ)/2 ≤ q - ⌊q⌋ := by linarith [not_lt.mp (by assumption)]
    have hlt : ⌊q⌋ < n := by
      rcases lt_or_eq_of_le hfl with h' | h'
      · exact h'
      · exfalso
        have hc : (⌊q⌋ : ℚ) = (n : ℚ) := by exact_mod_cast h'
        have : q - ⌊q⌋ ≤ 0 := by rw [hc]; linarith
        linarith
    split
    · omega
    · split <;> omega

theorem int_le_roundHE (q : ℚ) (n : ℤ) (h : (n : ℚ) ≤ q) : n ≤ roundHE q := by
  have hfl : n ≤ ⌊q⌋ := Int.le_floor.mpr h
  unfold roundHE
  split
  · exact hfl
  · split
    · omega
    · split <;> omega

theorem round2_le_int (q : ℚ) (n : ℤ) (h : q ≤ (n : ℚ)) : round2 q ≤ (n : ℚ) := by
  unfold round2
  have h1 : q * 100 ≤ ((n * 100 : ℤ) : ℚ) := by push_cast; linarith
  have h2 : roundHE (q * 100) ≤ n * 100 := roundHE_le_int _ _ h1
  have h3 : ((roundHE (q * 100) : ℤ) : ℚ) ≤ ((n * 100 : ℤ) : ℚ) := by exact_mod_cast h2
  push_cast at h3
  linarith

theorem int_le_round2 (q : ℚ) (n : ℤ) (h : (n : ℚ) ≤ q) : (n : ℚ) ≤ round2 q := by
  unfold round2
  have h1 : ((n * 100 : ℤ) : ℚ) ≤ q * 100 := by push_cast; linarith
  have h2 : n * 100 ≤ roundHE (q * 100) := int_le_roundHE _ _ h1
  have h3 : ((n * 100 : ℤ) : ℚ) ≤ ((roundHE (q * 100) : ℤ) : ℚ) := by exact_mod_cast h2
  push_cast at h3
  linarith

theorem roundHE_intCast (n : ℤ) : roundHE (n : ℚ) = n := by
  unfold roundHE
  rw [Int.floor_intCast]
  simp

theorem round2_intCast (n : ℤ) : round2 (n : ℚ) = (n : ℚ) := by
  unfold round2
  have : ((n : ℚ) * 100) = ((n * 100 : ℤ) : ℚ) := by push_cast; ring
  rw [this, roundHE_intCast]
  push_cast
  ring

theorem roundHE_of_floor_lt_half (q : ℚ) (z : ℤ) (hfl : ⌊q⌋ = z) (h : q - z < 1/2) :
    roundHE q = z := by
  unfold roundHE
  rw [hfl]
  rw [if_pos h]

theorem roundHE_of_floor_gt_half (q : ℚ) (z : ℤ) (hfl : ⌊q⌋ = z) (h : 1/2 < q - z) :
    roundHE q = z + 1 := by
  unfold roundHE
  rw [hfl]
  rw [if_neg (by linarith), if_pos h]

/- ### Core Quality: completeness (core_quality_service.py, lines 7-15) -/

structure CompletenessResult where
  score : PFloat
  missing_cells : ℕ
  status : String
deriving DecidableEq

/-- `CoreQualityService.completeness`:
`score = round(((total - missing) / total) * 100, 2)`;
`status = "CRITICAL" if missing/total > 0.2 else "WARNING" if missing/total > 0.1 else "GOOD"`.
On a table with zero cells the divisions are `0/0`, which numpy evaluates to
NaN (`PFloat.nan` here; the numerator is 0 whenever the denominator is, so the
infinity case cannot arise), and NaN threshold comparisons are false. -/
def completeness (df : Df) : CompletenessResult :=
  let total := df.totalCells
  let missing := df.missingCells
  let score := (PFloat.divP (.fin ((total : ℚ) - (missing : ℚ))) (.fin (total : ℚ))).mulQ 100
  let mf := PFloat.divP (.fin (missing : ℚ)) (.fin (total : ℚ))
  { score := score.round2P
    missing_cells := missing
    status := if mf.gtQ (1/5) then "CRITICAL" else if mf.gtQ (1/10) then "WARNING" else "GOOD" }

theorem missingCells_le_totalCells (df : Df) : df.missingCells ≤ df.totalCells := by
  unfold Df.missingCells Df.totalCells
  apply List.sum_le_sum
  intro p _
  exact List.countP_le_length _

/-- C2: On a table with a column but zero rows (`df.size = 0`), `completeness`
computes `0/0`, so the returned `score` leaf is the float NaN — not a finite
number and not an explicit non-value marker — and the NaN threshold
comparisons silently yield status `"GOOD"`.  This contradicts the spec's
contract that every numeric leaf of a returned result is finite or an explicit
non-value. -/
theorem c2_nan_leaf :
    completeness ⟨[("a", [])]⟩ =
      { score := PFloat.nan, missing_cells := 0, status := "GOOD" } := by
  norm_num [completeness, Df.totalCells, Df.missingCells, PFloat.divP, PFloat.mulQ,
    PFloat.round2P, PFloat.gtQ]

theorem round2_hundred : round2 (100 : ℚ) = 100 := by
  have := round2_intCast 100
  push_cast at this
  exact this

/-- C4 (amended): for every table with at least one cell, `completeness`
returns `score = round(100 - 100*(missing/total), 2)`, which lies in
`[0, 100]` and equals 100 if there are no missing cells (but not only then —
see the counterexample); status is `"CRITICAL"` iff the missing fraction
exceeds 0.20, `"WARNING"` iff it exceeds 0.10 but not 0.20, and `"GOOD"`
otherwise. -/
theorem c4_amended (df : Df) (h : 0 < df.totalCells) :
    (completeness df).score =
      PFloat.fin (round2 (100 - 100 * ((df.missingCells : ℚ) / (df.totalCells : ℚ)))) ∧
    (0:ℚ) ≤ round2 (100 - 100 * ((df.missingCells : ℚ) / (df.totalCells : ℚ))) ∧
    round2 (100 - 100 * ((df.missingCells : ℚ) / (df.totalCells : ℚ))) ≤ 100 ∧
    (df.missingCells = 0 → (completeness df).score = PFloat.fin 100) ∧
    ((completeness df).status = "CRITICAL" ↔
      1/5 < (df.missingCells : ℚ) / (df.totalCells : ℚ)) ∧
    ((completeness df).status = "WARNING" ↔
      1/10 < (df.missingCells : ℚ) / (df.totalCells : ℚ) ∧
        ¬ (1/5 < (df.missingCells : ℚ) / (df.totalCells : ℚ))) ∧
    ((completeness df).status = "GOOD" ↔
      ¬ (1/10 < (df.missingCells : ℚ) / (df.totalCells : ℚ))) := by
  have ht0 : (0:ℚ) < (df.totalCells : ℚ) := by exact_mod_cast h
  have htne : (df.totalCells : ℚ) ≠ 0 := ne_of_gt ht0
  have hmt : (df.missingCells : ℚ) ≤ (df.totalCells : ℚ) := by
    exact_mod_cast missingCells_le_totalCells df
  have hfrac0 : (0:ℚ) ≤ (df.missingCells : ℚ) / (df.totalCells : ℚ) := by positivity
  have hfrac1 : (df.missingCells : ℚ) / (df.totalCells : ℚ) ≤ 1 := by
    rw [div_le_one ht0]; exact hmt
  have hformula :
      ((df.totalCells : ℚ) - (df.missingCells : ℚ)) / (df.totalCells : ℚ) * 100 =
        100 - 100 * ((df.missingCells : ℚ) / (df.totalCells : ℚ)) := by
    field_simp
    ring
  have hscore : (completeness df).score =
      PFloat.fin (round2 (100 - 100 * ((df.missingCells : ℚ) / (df.totalCells : ℚ)))) := by
    simp only [completeness, PFloat.divP, if_neg htne, PFloat.mulQ, PFloat.round2P, hformula]
  have hraw0 : (0:ℚ) ≤ 100 - 100 * ((df.missingCells : ℚ) / (df.totalCells : ℚ)) := by
    nlinarith
  have hraw100 : 100 - 100 * ((df.missingCells : ℚ) / (df.totalCells : ℚ)) ≤ 100 := by
    nlinarith
  have hlow : (0:ℚ) ≤ round2 (100 - 100 * ((df.missingCells : ℚ) / (df.totalCells : ℚ))) := by
    have := int_le_round2 (100 - 100 * ((df.missingCells : ℚ) / (df.totalCells : ℚ))) 0
      (by push_cast; linarith)
    simpa using this
  have hhigh : round2 (100 - 100 * ((df.missingCells : ℚ) / (df.totalCells : ℚ))) ≤ 100 := by
    have := round2_le_int (100 - 100 * ((df.missingCells : ℚ) / (df.totalCells : ℚ))) 100
      (by push_cast; linarith)
    simpa using this
  have hstatus : (completeness df).status =
      (if 1/5 < (df.missingCells : ℚ) / (df.totalCells : ℚ) then "CRITICAL"
       else if 1/10 < (df.missingCells : ℚ) / (df.totalCells : ℚ) then "WARNING"
       else "GOOD") := by
    simp only [completeness, PFloat.divP, if_neg htne, PFloat.gtQ, decide_eq_true_eq]
  refine ⟨hscore, hlow, hhigh, ?_, ?_, ?_, ?_⟩
  · intro hz
    rw [hscore, hz]
    norm_num [round2_hundred]
  · rw [hstatus]
    by_cases h1 : 1/5 < (df.missingCells : ℚ) / (df.totalCells : ℚ)
    · rw [if_pos h1]
      exact ⟨fun _ => h1, fun _ => rfl⟩
    · rw [if_neg h1]
      by_cases h2 : 1/10 < (df.missingCells : ℚ) / (df.totalCells : ℚ)
      · rw [if_pos h2]
        constructor
        · intro hc
          exact absurd hc (by decide)
        · intro hc
          exact absurd hc h1
      · rw [if_neg h2]
        constructor
        · intro hc
          exact absurd hc (by decide)
        · intro hc
          exact absurd hc h1
  · rw [hstatus]
    by_cases h1 : 1/5 < (df.missingCells : ℚ) / (df.totalCells : ℚ)
    · rw [if_pos h1]
      constructor
      · intro hc
        exact absurd hc (by decide)
      · rintro ⟨-, hc⟩
        exact absurd h1 hc
    · rw [if_neg h1]
      by_cases h2 : 1/10 < (df.missingCells : ℚ) / (df.totalCells : ℚ)
      · rw [if_pos h2]
        exact ⟨fun _ => ⟨h2, h1⟩, fun _ => rfl⟩
      · rw [if_neg h2]
        constructor
        · intro hc
          exact absurd hc (by decide)
        · rintro ⟨hc, -⟩
          exact absurd hc h2
  · rw [hstatus]
    by_cases h1 : 1/5 < (df.missingCells : ℚ) / (df.totalCells : ℚ)
    · rw [if_pos h1]
      constructor
      · intro hc
        exact absurd hc (by decide)
      · intro hc
        exact absurd (by linarith : 1/10 < (df.missingCells : ℚ) / (df.totalCells : ℚ)) hc
    · rw [if_neg h1]
      by_cases h2 : 1/10 < (df.missingCells : ℚ) / (df.totalCells : ℚ)
      · rw [if_pos h2]
        constructor
        · intro hc
          exact absurd hc (by decide)
        · intro hc
          exact absurd h2 hc
      · rw [if_neg h2]
        exact ⟨fun _ => h2, fun _ => rfl⟩

/-- Completeness of a single-column table whose first cell is missing and
whose other `n` cells hold the numeric value 1. -/
theorem completeness_one_missing (n : ℕ) :
    (completeness ⟨[("a", Cell.missing :: List.replicate n (Cell.num 1))]⟩).missing_cells
        = 1 ∧
    (completeness ⟨[("a", Cell.missing :: List.replicate n (Cell.num 1))]⟩).score
        = PFloat.fin (round2 (((n : ℚ) + 1 - 1) / ((n : ℚ) + 1) * 100)) := by
  have hmc : Df.missingCells ⟨[("a", Cell.missing :: List.replicate n (Cell.num 1))]⟩
      = 1 := by
    simp only [Df.missingCells, List.map_cons, List.map_nil, List.sum_cons, List.sum_nil,
      List.countP_cons, List.countP_replicate, Cell.isMissing]
    norm_num
  have htc : Df.totalCells ⟨[("a", Cell.missing :: List.replicate n (Cell.num 1))]⟩
      = n + 1 := by
    simp only [Df.totalCells, List.map_cons, List.map_nil, List.sum_cons, List.sum_nil,
      List.length_cons, List.length_replicate]
    omega
  have hne : ((n : ℚ) + 1) ≠ 0 := by positivity
  constructor
  · simp only [completeness, hmc]
  · simp only [completeness, hmc, htc, PFloat.divP, PFloat.mulQ, PFloat.round2P]
    push_cast
    rw [if_neg hne]

/-- C4 (counterexample): a table with one column of 40000 cells of which
exactly one is missing has a positive missing fraction, yet
`completeness` reports `score = 100.0` (99.9975 rounds to 100.00 at two
decimals).  This refutes the claim's "score equals 100 iff there are no
missing cells". -/
theorem c4_counterexample :
    (completeness ⟨[("a", Cell.missing :: List.replicate 39999 (Cell.num 1))]⟩).missing_cells
        = 1 ∧
    (completeness ⟨[("a", Cell.missing :: List.replicate 39999 (Cell.num 1))]⟩).score
        = PFloat.fin 100 := by
  obtain ⟨h1, h2⟩ := completeness_one_missing 39999
  refine ⟨h1, ?_⟩
  rw [h2]
  have hr : round2 ((39999:ℚ)/400) = 100 := by
    unfold round2
    have hfl : ⌊(39999:ℚ)/400 * 100⌋ = 9999 := by
      rw [Int.floor_eq_iff]
      norm_num
    rw [roundHE_of_floor_gt_half _ 9999 hfl (by push_cast; norm_num)]
    norm_num
  rw [show (((39999:ℕ) : ℚ) + 1 - 1) / (((39999:ℕ) : ℚ) + 1) * 100 = (39999:ℚ)/400 by
    push_cast; norm_num]
  rw [hr]

/-- C4 (witness): the amended theorem applied to the concrete two-cell table
with one missing value (missing fraction 1/2 > 0.2, so status `"CRITICAL"`). -/
theorem c4_witness :
    0 < Df.totalCells ⟨[("a", [Cell.num 1, Cell.missing])]⟩ ∧
    ((completeness ⟨[("a", [Cell.num 1, Cell.missing])]⟩).status = "CRITICAL" ↔
      1/5 < ((Df.missingCells ⟨[("a", [Cell.num 1, Cell.missing])]⟩ : ℚ) /
        (Df.totalCells ⟨[("a", [Cell.num 1, Cell.missing])]⟩ : ℚ))) :=
  ⟨by decide, (c4_amended ⟨[("a", [Cell.num 1, Cell.missing])]⟩ (by decide)).2.2.2.2.1⟩
/- ### Precision Quality: calculation_accuracy (precision_quality_service.py, lines 155-179) -/

/-- The three result shapes of `calculation_accuracy`: the configuration-error
dict `{"error": msg}`, the data dict `{"accuracy_%": pct, "status": s}` (the
insufficient-data case is `result 0 "No data"`), and the caught-exception dict
`{"error": msg, "status": "Error"}`. -/
inductive CalcAccResult where
  | configError (msg : String)
  | result (accuracyPct : ℚ) (status : String)
  | excError (msg : String)
deriving DecidableEq

/-- `np.isclose(x, y, atol=0.01)` with the default `rtol=1e-05`:
`|x - y| <= atol + rtol*|y|`. -/
def isclose (a b : ℚ) : Bool := decide (|a - b| ≤ 1/100 + |b| / 100000)

def isNumTriple : Cell × Cell × Cell → Bool
  | (.num _, .num _, .num _) => true
  | _ => false

/-- `np.isclose(row.a + row.b, row.c, atol=0.01)` for one kept row. -/
def closeRow : Cell × Cell × Cell → Bool
  | (.num a, .num b, .num c) => isclose (a + b) c
  | _ => false

/-- A row of three present numeric cells with `c = a + b` exactly. -/
def exactRow : Cell × Cell × Cell → Bool
  | (.num a, .num b, .num c) => decide (a + b = c)
  | _ => false

/-- The body after `clean_df = df[base_cols].dropna()`: empty → the
`{"accuracy_%": 0.0, "status": "No data"}` dict; rows containing a
non-numeric value make the pandas arithmetic raise (caught by the `try`,
giving the `"Error"` dict); otherwise
`accuracy = isclose(a+b, c).mean()*100`, reported rounded to 2 decimals,
status `"Issue"` iff the unrounded accuracy is below 92. -/
def calcRows (rows : List (Cell × Cell × Cell)) : CalcAccResult :=
  if rows.isEmpty then .result 0 "No data"
  else if rows.all isNumTriple then
    let pct : ℚ := ((rows.countP closeRow : ℕ) : ℚ) / (rows.length : ℚ) * 100
    .result (round2 pct) (if pct < 92 then "Issue" else "OK")
  else .excError "TypeError"

/-- `PrecisionQualityService.calculation_accuracy`: requires exactly 3 column
names (otherwise a configuration-error dict), all present in the table
(otherwise a missing-columns error dict); then drops rows with a missing
value in any of the three columns and scores `|a+b-c| <= 0.01` per row. -/
def calculation_accuracy (df : Df) (base_cols : List String) : CalcAccResult :=
  match base_cols with
  | [c1, c2, c3] =>
    if (df.get c1).isNone || (df.get c2).isNone || (df.get c3).isNone then
      .configError "Missing columns"
    else
      calcRows
        ((((df.get c1).getD []).zip (((df.get c2).getD []).zip ((df.get c3).getD []))).filter
          (fun p => !p.1.isMissing && !p.2.1.isMissing && !p.2.2.isMissing))
  | _ => .configError "Provide exactly 3 columns: [a, b, c] where c should equal a+b"

theorem exactRow_isNumTriple (p : Cell × Cell × Cell) (h : exactRow p = true) :
    isNumTriple p = true := by
  rcases p with ⟨a, b, c⟩
  cases a <;> cases b <;> cases c <;> simp_all [exactRow, isNumTriple]

theorem exactRow_closeRow (p : Cell × Cell × Cell) (h : exactRow p = true) :
    closeRow p = true := by
  rcases p with ⟨a, b, c⟩
  cases a <;> cases b <;> cases c <;>
    simp_all [exactRow, closeRow, isclose]
  · positivity

theorem exactRow_keep (p : Cell × Cell × Cell) (h : exactRow p = true) :
    (!p.1.isMissing && !p.2.1.isMissing && !p.2.2.isMissing) = true := by
  rcases p with ⟨a, b, c⟩
  cases a <;> cases b <;> cases c <;> simp_all [exactRow, Cell.isMissing]

theorem calcRows_exact (rows : List (Cell × Cell × Cell)) (hne : rows ≠ [])
    (hall : ∀ p ∈ rows, exactRow p = true) : calcRows rows = .result 100 "OK" := by
  have hlen : (0:ℚ) < (rows.length : ℚ) := by
    have : 0 < rows.length := List.length_pos.mpr hne
    exact_mod_cast this
  have hcount : rows.countP closeRow = rows.length :=
    List.countP_eq_length.mpr (fun p hp => exactRow_closeRow p (hall p hp))
  have hpct : ((rows.countP closeRow : ℕ) : ℚ) / (rows.length : ℚ) * 100 = 100 := by
    rw [hcount, div_self (ne_of_gt hlen)]
    ring
  unfold calcRows
  rw [if_neg (by simpa [List.isEmpty_iff] using hne),
    if_pos (List.all_eq_true.mpr (fun p hp => exactRow_isNumTriple p (hall p hp)))]
  simp only [hpct, round2_hundred]
  norm_num

/-- C5 (amended): `calculation_accuracy` returns a configuration-error result
(without raising) when the column list does not have exactly 3 entries or
when an entry is absent from the table; and given 3 present columns with at
least one row, where every row holds three numeric values with `c = a + b`
exactly, it returns `accuracy_% = 100.0` with status `"OK"`.  (With 3 present
columns but no rows the separate `"No data"` result is returned instead —
see the counterexample.) -/
theorem c5_amended :
    (∀ (df : Df) (cols : List String), cols.length ≠ 3 →
      ∃ m, calculation_accuracy df cols = .configError m) ∧
    (∀ (df : Df) (c1 c2 c3 : String),
      ((df.get c1).isNone || (df.get c2).isNone || (df.get c3).isNone) = true →
      ∃ m, calculation_accuracy df [c1, c2, c3] = .configError m) ∧
    (∀ (df : Df) (c1 c2 c3 : String) (l1 l2 l3 : Col),
      df.get c1 = some l1 → df.get c2 = some l2 → df.get c3 = some l3 →
      l1.zip (l2.zip l3) ≠ [] →
      (∀ p ∈ l1.zip (l2.zip l3), exactRow p = true) →
      calculation_accuracy df [c1, c2, c3] = .result 100 "OK") := by
  refine ⟨?_, ?_, ?_⟩
  · intro df cols h
    match cols with
    | [] => exact ⟨_, rfl⟩
    | [a] => exact ⟨_, rfl⟩
    | [a, b] => exact ⟨_, rfl⟩
    | [a, b, c] => simp at h
    | a :: b :: c :: d :: rest => exact ⟨_, rfl⟩
  · intro df c1 c2 c3 h
    refine ⟨"Missing columns", ?_⟩
    simp only [calculation_accuracy, h]
    rfl
  · intro df c1 c2 c3 l1 l2 l3 h1 h2 h3 hne hall
    have hfilter :
        ((l1.zip (l2.zip l3)).filter
          (fun p => !p.1.isMissing && !p.2.1.isMissing && !p.2.2.isMissing))
          = l1.zip (l2.zip l3) :=
      List.filter_eq_self.mpr (fun p hp => exactRow_keep p (hall p hp))
    simp only [calculation_accuracy, h1, h2, h3, Option.isNone_some, Bool.or_self,
      Bool.or_false, Option.getD_some]
    rw [if_neg (by simp), hfilter]
    exact calcRows_exact _ hne hall

/-- C5 (counterexample): with 3 present but empty columns, every row
(vacuously) satisfies `c = a + b`, yet `calculation_accuracy` returns the
insufficient-data result `{"accuracy_%": 0.0, "status": "No data"}`, not
`accuracy_% = 100.0` with status `"OK"` as the claim states. -/
theorem c5_counterexample :
    calculation_accuracy ⟨[("a", []), ("b", []), ("c", [])]⟩ ["a", "b", "c"]
        = .result 0 "No data" ∧
    CalcAccResult.result 0 "No data" ≠ CalcAccResult.result 100 "OK" := by
  constructor
  · rfl
  · intro h
    cases h

/-- C5 (witness): the amended theorem applied to a one-row table with columns
`a = [1]`, `b = [2]`, `c = [3]` (`3 = 1 + 2` exactly). -/
theorem c5_witness :
    calculation_accuracy ⟨[("a", [Cell.num 1]), ("b", [Cell.num 2]), ("c", [Cell.num 3])]⟩
      ["a", "b", "c"] = .result 100 "OK" :=
  c5_amended.2.2 ⟨[("a", [Cell.num 1]), ("b", [Cell.num 2]), ("c", [Cell.num 3])]⟩
    "a" "b" "c" [Cell.num 1] [Cell.num 2] [Cell.num 3] rfl rfl rfl (by decide)
    (by intro p hp; simp at hp; subst hp; simp [exactRow]; norm_num)

/-- C10: with exactly 3 present columns where every row has a missing value in
at least one of the three, `calculation_accuracy` returns
`{"accuracy_%": 0.0, "status": "No data"}` — an insufficient-data result, not
a configuration error and not an exception. -/
theorem c10_all_missing (df : Df) (c1 c2 c3 : String) (l1 l2 l3 : Col)
    (h1 : df.get c1 = some l1) (h2 : df.get c2 = some l2) (h3 : df.get c3 = some l3)
    (hmiss : ∀ p ∈ l1.zip (l2.zip l3),
      (p.1.isMissing || p.2.1.isMissing || p.2.2.isMissing) = true) :
    calculation_accuracy df [c1, c2, c3] = .result 0 "No data" := by
  have hfilter :
      ((l1.zip (l2.zip l3)).filter
        (fun p => !p.1.isMissing && !p.2.1.isMissing && !p.2.2.isMissing))
        = [] := by
    apply List.filter_eq_nil_iff.mpr
    intro p hp
    have := hmiss p hp
    rcases p with ⟨a, bc⟩
    rcases bc with ⟨b, c⟩
    cases ha : a.isMissing <;> cases hb : b.isMissing <;> cases hc : c.isMissing <;>
      simp_all
  simp only [calculation_accuracy, h1, h2, h3, Option.isNone_some, Bool.or_self,
    Bool.or_false, Option.getD_some]
  rw [if_neg (by simp), hfilter]
  rfl

/-- C10 (witness): the theorem applied to a concrete two-row table where each
row misses one of the three values. -/
theorem c10_witness :
    calculation_accuracy
      ⟨[("a", [Cell.missing, Cell.num 1]), ("b", [Cell.num 1, Cell.missing]),
        ("c", [Cell.num 1, Cell.num 1])]⟩ ["a", "b", "c"] = .result 0 "No data" :=
  c10_all_missing _ "a" "b" "c" [Cell.missing, Cell.num 1] [Cell.num 1, Cell.missing]
    [Cell.num 1, Cell.num 1] rfl rfl rfl (by decide)

/- ### Semantic Quality: business_rule_compliance (semantic_quality_service.py, lines 16-42) -/

/-- The fragment of the YAML configuration consumed by
`SemanticQualityService` that `business_rule_compliance` uses. -/
structure SemConfig where
  frequency_columns : List String
  powerfactor_columns : List String
deriving DecidableEq

/-- `[col for col in cols if col in df.columns]`. -/
def presentCols (df : Df) (l : List String) : List String :=
  l.filter (fun c => (df.get c).isSome)

/-- `Series.std()` (sample standard deviation, `ddof=1`) squared: the sample
variance of the non-null values, `None` when fewer than 2 values exist (where
pandas returns NaN).  The source compares `std > 0.2`; since both sides are
nonnegative this is equivalent to `var > 0.04`, which is how the comparison
is embedded (squaring avoids the irrational square root). -/
def sampleVarQ (xs : List ℚ) : Option ℚ :=
  if xs.length < 2 then none
  else
    some (((xs.map (fun y => (y - xs.sum / (xs.length : ℚ))^2)).sum) / ((xs.length : ℚ) - 1))

/-- Frequency-rule check: `pd.notna(std) and std > 0.2` (i.e. `var > 1/25`). -/
def freqViolation (col : Col) : Bool :=
  match sampleVarQ (col.filterMap Cell.toNum) with
  | none => false
  | some v => decide ((1:ℚ)/25 < v)

/-- Power-factor rule check: `len(df[(df[col] < -1) | (df[col] > 1)])`, the
number of rows whose value is outside [-1, 1] (NaN comparisons are false). -/
def pfViolations (col : Col) : ℕ :=
  col.countP (fun x => match x with
    | .num v => decide (v < -1 ∨ 1 < v)
    | _ => false)

structure BRCResult where
  rule_violations : ℕ
  compliance_score : ℚ
  status : String
deriving DecidableEq

/-- `SemanticQualityService.business_rule_compliance`: one violation per
frequency column with sample std > 0.2, one violation per out-of-range
power-factor cell; `compliance = 1 - violations/(rules + 1e-6)` with
`rules` the number of present frequency plus power-factor columns; status
`"Issue"` iff the unrounded compliance is below 0.95; the reported score is
rounded to 2 decimals. -/
def business_rule_compliance (cfg : SemConfig) (df : Df) : BRCResult :=
  let freq_cols := presentCols df cfg.frequency_columns
  let pf_cols := presentCols df cfg.powerfactor_columns
  let v := freq_cols.countP (fun c => freqViolation ((df.get c).getD [])) +
    (pf_cols.map (fun c => pfViolations ((df.get c).getD []))).sum
  let total := freq_cols.length + pf_cols.length
  let score : ℚ := 1 - (v : ℚ) / ((total : ℚ) + 1/1000000)
  { rule_violations := v
    compliance_score := round2 score
    status := if score < 19/20 then "Issue" else "OK" }

/-- C6 (amended): the compliance score reported by `business_rule_compliance`
is at most 1, and it is nonnegative whenever no configured power-factor
column is present in the table (the frequency rules contribute at most one
violation per rule).  It is not bounded below by 0 in general — see the
counterexample.  The hypothesis restricts the table to cells on which the
pandas comparisons of the source do not raise. -/
theorem c6_amended (cfg : SemConfig) (df : Df)
    (_hnum : ∀ c ∈ presentCols df cfg.frequency_columns ++
        presentCols df cfg.powerfactor_columns,
      ∀ x ∈ (df.get c).getD [], x.isMissing = true ∨ (x.toNum).isSome = true) :
    (business_rule_compliance cfg df).compliance_score ≤ 1 ∧
    (presentCols df cfg.powerfactor_columns = [] →
      0 ≤ (business_rule_compliance cfg df).compliance_score) := by
  have hscore : (business_rule_compliance cfg df).compliance_score =
      round2 (1 - (((presentCols df cfg.frequency_columns).countP
          (fun c => freqViolation ((df.get c).getD [])) +
        ((presentCols df cfg.powerfactor_columns).map
          (fun c => pfViolations ((df.get c).getD []))).sum : ℕ) : ℚ) /
        ((((presentCols df cfg.frequency_columns).length +
          (presentCols df cfg.powerfactor_columns).length : ℕ) : ℚ) + 1/1000000)) := rfl
  set v : ℕ := (presentCols df cfg.frequency_columns).countP
      (fun c => freqViolation ((df.get c).getD [])) +
    ((presentCols df cfg.powerfactor_columns).map
      (fun c => pfViolations ((df.get c).getD []))).sum with hv
  set t : ℕ := (presentCols df cfg.frequency_columns).length +
    (presentCols df cfg.powerfactor_columns).length with ht
  have hden : (0:ℚ) < (t : ℚ) + 1/1000000 := by positivity
  constructor
  · rw [hscore]
    have hraw : 1 - (v : ℚ) / ((t : ℚ) + 1/1000000) ≤ 1 := by
      have : (0:ℚ) ≤ (v : ℚ) / ((t : ℚ) + 1/1000000) := by positivity
      linarith
    have := round2_le_int (1 - (v : ℚ) / ((t : ℚ) + 1/1000000)) 1 (by push_cast; linarith)
    simpa using this
  · intro hpf
    rw [hscore]
    have hvt : v ≤ t := by
      rw [hv, ht, hpf]
      simp only [List.map_nil, List.sum_nil, List.length_nil, Nat.add_zero]
      exact List.countP_le_length _
    have hvt' : (v : ℚ) ≤ (t : ℚ) := by exact_mod_cast hvt
    have hraw : 0 ≤ 1 - (v : ℚ) / ((t : ℚ) + 1/1000000) := by
      have hlt : (v : ℚ) / ((t : ℚ) + 1/1000000) ≤ ((t : ℚ)) / ((t : ℚ) + 1/1000000) :=
        div_le_div_of_nonneg_right hvt' (le_of_lt hden)
      have h1 : ((t : ℚ)) / ((t : ℚ) + 1/1000000) < 1 := by
        rw [div_lt_one hden]
        linarith
      linarith
    have := int_le_round2 (1 - (v : ℚ) / ((t : ℚ) + 1/1000000)) 0 (by push_cast; linarith)
    simpa using this

/-- C6 (counterexample): one configured power-factor column present with two
rows both outside [-1, 1] gives 2 violations against 1 rule, so
`compliance = 1 - 2/(1 + 1e-6) = -999999/1000001`, reported as `-1.0` —
a ratio strictly below 0, refuting "the compliance score lies in [0, 1]". -/
theorem c6_counterexample :
    (business_rule_compliance ⟨[], ["pf"]⟩
        ⟨[("pf", [Cell.num 2, Cell.num 2])]⟩).compliance_score = -1 ∧
    (-1 : ℚ) < 0 := by
  refine ⟨?_, by norm_num⟩
  have hv : business_rule_compliance ⟨[], ["pf"]⟩ ⟨[("pf", [Cell.num 2, Cell.num 2])]⟩ =
      { rule_violations := 2
        compliance_score := round2 (1 - (2 : ℚ) / ((1 : ℚ) + 1/1000000))
        status := if (1 - (2 : ℚ) / ((1 : ℚ) + 1/1000000)) < 19/20 then "Issue" else "OK" } := by
    simp only [business_rule_compliance, presentCols, Df.get, getA]
    norm_num [pfViolations, List.countP_cons, Cell.toNum]
  rw [hv]
  have harg : (1 - (2 : ℚ) / ((1 : ℚ) + 1/1000000)) = -999999/1000001 := by norm_num
  rw [harg]
  unfold round2
  have hfl : ⌊(-999999 : ℚ)/1000001 * 100⌋ = -100 := by
    rw [Int.floor_eq_iff]
    norm_num
  rw [roundHE_of_floor_lt_half _ (-100) hfl (by push_cast; norm_num)]
  norm_num

/-- C6 (witness): the amended theorem applied to a table with one frequency
column and no power-factor columns. -/
theorem c6_witness :
    (business_rule_compliance ⟨["f"], []⟩
        ⟨[("f", [Cell.num 0, Cell.num 0])]⟩).compliance_score ≤ 1 ∧
    (presentCols ⟨[("f", [Cell.num 0, Cell.num 0])]⟩ [] = [] →
      0 ≤ (business_rule_compliance ⟨["f"], []⟩
        ⟨[("f", [Cell.num 0, Cell.num 0])]⟩).compliance_score) :=
  c6_amended ⟨["f"], []⟩ ⟨[("f", [Cell.num 0, Cell.num 0])]⟩ (by decide)

/- ### Semantic Quality: domain_value_validity (semantic_quality_service.py, lines 77-101) -/

/-- Lexicographic comparison of character lists by code point, as for Python
strings. -/
def listLtChar : List Char → List Char → Bool
  | [], [] => false
  | [], _ :: _ => true
  | _ :: _, [] => false
  | a :: as, b :: bs =>
    if a.toNat < b.toNat then true
    else if b.toNat < a.toNat then false
    else listLtChar as bs

/-- Python `<` on strings. -/
def strLtB (a b : String) : Bool := listLtChar a.data b.data

/-- Elementwise `<` as pandas evaluates it between a cell and a scalar:
numbers compare numerically, strings lexicographically; NaN comparisons are
false (comparisons between text and numbers raise in pandas and are not
modelled; the theorems restrict the cells accordingly). -/
def cellLt : Cell → Cell → Bool
  | .num a, .num b => decide (a < b)
  | .txt a, .txt b => strLtB a b
  | _, _ => false

/-- One `domain_rules` entry: a 2-element list (taken by the source as a
`[min, max]` range check regardless of the element types, via
`isinstance(rule, list) and len(rule) == 2`) or any other value, treated as
an allowed-value set via `Series.isin`. -/
inductive DomainRule where
  | pair (lo hi : Cell)
  | allowed (vs : List Cell)
deriving DecidableEq

structure DVVResult where
  invalid_columns : List String
  domain_validity_score : ℚ
  status : String
deriving DecidableEq

/-- Whether a configured column violates its rule (absent columns are
skipped): range rule — `((df[col] < min) | (df[col] > max)).any()`;
set rule — `(~df[col].isin(rule)).any()`. -/
def ruleViolated (df : Df) (c : String) (r : DomainRule) : Bool :=
  match df.get c with
  | none => false
  | some col =>
    match r with
    | .pair lo hi => col.any (fun x => cellLt x lo || cellLt hi x)
    | .allowed vs => col.any (fun x => !(vs.contains x))

/-- `SemanticQualityService.domain_value_validity`:
`score = 1 - invalid/max(len(rules), 1)`, reported rounded to 2 decimals,
status `"Issue"` iff the unrounded score is below 0.88. -/
def domain_value_validity (rules : List (String × DomainRule)) (df : Df) : DVVResult :=
  let invalid := (rules.filter (fun p => ruleViolated df p.1 p.2)).map Prod.fst
  let score : ℚ := 1 - (invalid.length : ℚ) / ((max rules.length 1 : ℕ) : ℚ)
  { invalid_columns := invalid
    domain_validity_score := round2 score
    status := if score < 22/25 then "Issue" else "OK" }

theorem round2_zero : round2 (0 : ℚ) = 0 := by
  have := round2_intCast 0
  push_cast at this
  exact this

/-- C8: with the rule mapping `{"status": ["A", "B"]}` and a table whose
`status` column is textual and contains `"C"`, `domain_value_validity`
returns `invalid_columns = ["status"]` and status `"Issue"` (score 0).  The
2-element list rule is evaluated by the source as the range check
`value < "A" or value > "B"`, and `"C" > "B"` lexicographically, so the
column is flagged.  The hypothesis that the column is all-text keeps the
pandas comparisons of the source from raising. -/
theorem c8_domain_validity (df : Df) (col : Col)
    (hget : df.get "status" = some col)
    (_hstr : ∀ x ∈ col, x.isTxt = true)
    (hC : Cell.txt "C" ∈ col) :
    domain_value_validity [("status", DomainRule.pair (Cell.txt "A") (Cell.txt "B"))] df
      = { invalid_columns := ["status"], domain_validity_score := 0, status := "Issue" } := by
  have hviol : ruleViolated df "status" (DomainRule.pair (Cell.txt "A") (Cell.txt "B"))
      = true := by
    unfold ruleViolated
    rw [hget]
    exact List.any_eq_true.mpr ⟨Cell.txt "C", hC, by decide⟩
  unfold domain_value_validity
  simp only [List.filter_cons, hviol, if_pos, List.filter_nil, List.map_cons, List.map_nil,
    List.length_cons, List.length_nil]
  norm_num [round2_zero]

/-- C8 (witness): the theorem applied to the concrete table whose `status`
column is `["A", "C"]`. -/
theorem c8_witness :
    domain_value_validity [("status", DomainRule.pair (Cell.txt "A") (Cell.txt "B"))]
      ⟨[("status", [Cell.txt "A", Cell.txt "C"])]⟩
      = { invalid_columns := ["status"], domain_validity_score := 0, status := "Issue" } :=
  c8_domain_validity ⟨[("status", [Cell.txt "A", Cell.txt "C"])]⟩
    [Cell.txt "A", Cell.txt "C"] rfl (by decide) (by decide)

/- ### Core Quality: accuracy (core_quality_service.py, lines 28-37) -/

structure AccRec where
  outlierPct : PFloat
  status : String
deriving DecidableEq

/-- Whether `|z| > 3` holds for one cell of the column, with
`z = (x - mean)/std(ddof=0)` over the column's non-null values.  `|z| > 3`
is embedded as `(x - mean)^2 > 9*var` since `std = sqrt(var)` and both sides
are nonnegative.  When `std = 0`, the source's float division gives
`z = 0/0 = NaN` for `x = mean` (comparison false) and `z = ±inf` otherwise
(comparison true); when the column has no numeric values, `mean` is NaN and
every comparison is false; missing cells have NaN z-scores (false). -/
def zFlag (vals : List ℚ) : Cell → Bool
  | .num v =>
    if vals.length = 0 then false
    else
      let μ := vals.sum / (vals.length : ℚ)
      let σ2 := ((vals.map (fun y => (y - μ)^2)).sum) / (vals.length : ℚ)
      if σ2 = 0 then decide (v ≠ μ) else decide (9 * σ2 < (v - μ)^2)
  | _ => false

/-- Per-column body of `CoreQualityService.accuracy`:
`outlier_% = (np.abs(z_scores) > 3).mean() * 100` (the mean is over the whole
column length, missing entries contributing false), rounded to 2 decimals;
status `"Issue"` iff the unrounded ratio exceeds 10. -/
def accuracyCol (col : Col) : AccRec :=
  let vals := col.filterMap Cell.toNum
  let ratio := (PFloat.divP (.fin ((col.countP (zFlag vals) : ℕ) : ℚ))
    (.fin ((col.length : ℕ) : ℚ))).mulQ 100
  { outlierPct := ratio.round2P
    status := if ratio.gtQ 10 then "Issue" else "OK" }

/-- `CoreQualityService.accuracy`: the per-column loop.  `df[col]` on an
absent column raises `KeyError`, and the loop has no exception handling, so
the whole operation aborts (`Except.error`). -/
def accuracy (df : Df) (cols : List String) : Except String (List (String × AccRec)) :=
  match cols with
  | [] => .ok []
  | c :: rest =>
    match df.get c with
    | none => .error "KeyError"
    | some col => (accuracy df rest).map (fun r => (c, accuracyCol col) :: r)

theorem filterMap_toNum_const (col : Col) (v : ℚ) (hconst : ∀ x ∈ col, x = Cell.num v) :
    col.filterMap Cell.toNum = List.replicate col.length v := by
  induction col with
  | nil => simp
  | cons a rest ih =>
    have ha := hconst a (by simp)
    subst ha
    rw [List.filterMap_cons]
    simp only [Cell.toNum, List.length_cons, List.replicate_succ]
    rw [ih (fun x hx => hconst x (by simp [hx]))]

theorem zFlag_const (n : ℕ) (v : ℚ) (hn : n ≠ 0) :
    zFlag (List.replicate n v) (Cell.num v) = false := by
  have hnq : ((n : ℕ) : ℚ) ≠ 0 := Nat.cast_ne_zero.mpr hn
  unfold zFlag
  simp only [List.length_replicate, List.sum_replicate, List.map_replicate, nsmul_eq_mul]
  rw [if_neg hn]
  have hμ : (n : ℚ) * v / (n : ℚ) = v := by field_simp
  rw [hμ]
  simp

/-- C7: on a non-empty column whose cells all hold the same numeric value
(zero population variance), the core `accuracy` operation does not raise and
reports `outlier_% = 0` with status `"OK"` for that column. -/
theorem c7_constant_column (df : Df) (c : String) (col : Col) (v : ℚ)
    (hget : df.get c = some col) (hne : col ≠ [])
    (hconst : ∀ x ∈ col, x = Cell.num v) :
    accuracy df [c] = .ok [(c, { outlierPct := PFloat.fin 0, status := "OK" })] := by
  have hvals := filterMap_toNum_const col v hconst
  have hn : col.length ≠ 0 := fun h => hne (List.length_eq_zero.mp h)
  have hflag : ∀ x ∈ col, zFlag (col.filterMap Cell.toNum) x = false := by
    intro x hx
    rw [hconst x hx, hvals]
    exact zFlag_const _ _ hn
  have hcount : col.countP (zFlag (col.filterMap Cell.toNum)) = 0 :=
    List.countP_eq_zero.mpr (by intro x hx; simp [hflag x hx])
  have hacc : accuracyCol col = { outlierPct := PFloat.fin 0, status := "OK" } := by
    simp only [accuracyCol]
    rw [hcount]
    have hratio : (PFloat.divP (.fin (((0:ℕ) : ℕ) : ℚ)) (.fin ((col.length : ℕ) : ℚ))).mulQ 100
        = PFloat.fin 0 := by
      simp only [PFloat.divP, Nat.cast_zero]
      rw [if_neg (Nat.cast_ne_zero.mpr hn)]
      norm_num [PFloat.mulQ]
    rw [hratio]
    simp [PFloat.round2P, PFloat.gtQ, round2_zero]
  unfold accuracy
  rw [hget]
  unfold accuracy
  simp [hacc, Except.map]

/-- C7 (witness): the theorem applied to the constant column `[5, 5]`. -/
theorem c7_witness :
    accuracy ⟨[("k", [Cell.num 5, Cell.num 5])]⟩ ["k"]
      = .ok [("k", { outlierPct := PFloat.fin 0, status := "OK" })] :=
  c7_constant_column ⟨[("k", [Cell.num 5, Cell.num 5])]⟩ "k" [Cell.num 5, Cell.num 5] 5
    rfl (by decide) (by decide)

/- ### Shared list statistics (sorting, quantile, median) -/

def sortQ (l : List ℚ) : List ℚ := l.insertionSort (· ≤ ·)

/-- pandas `Series.quantile(p)`: linear interpolation over the sorted
non-null values (`h = p*(n-1)`, interpolate between neighbours); NaN on an
empty series. -/
def quantileQ (xs : List ℚ) (p : ℚ) : PFloat :=
  match sortQ xs with
  | [] => .nan
  | y :: ys =>
    let s := y :: ys
    let n := s.length
    let h : ℚ := p * ((n : ℚ) - 1)
    let i : ℕ := (⌊h⌋).toNat
    let lo := s.getD i 0
    let hi := s.getD (min (i + 1) (n - 1)) 0
    .fin (lo + (h - (⌊h⌋ : ℚ)) * (hi - lo))

/-- pandas `Series.median()` on an already non-null list: middle element of
the sorted list, or the average of the two middle elements (0 for an empty
list, used only where the source guards the empty case). -/
def medianQ (l : List ℚ) : ℚ :=
  let s := sortQ l
  let n := s.length
  if n = 0 then 0
  else if n % 2 = 1 then s.getD (n / 2) 0
  else (s.getD (n / 2 - 1) 0 + s.getD (n / 2) 0) / 2

/-- Successive differences of a list (`Series.diff().dropna()` of a sorted
series). -/
def succDiffs (l : List ℚ) : List ℚ := (l.zip l.tail).map (fun p => p.2 - p.1)

/- ### Precision Quality: decimal_precision (precision_quality_service.py, lines 32-58)
     and Statistical Quality: outlier_score (statistical_quality_service.py, lines 20-34) -/

/-- One per-column result of `decimal_precision`: the data dict
`{"unique_decimal_counts": [...], "status": s}` or the caught-exception dict
`{"error": msg, "status": "Error"}`. -/
inductive DPEntry where
  | entry (unique_decimal_counts : List ℕ) (status : String)
  | err (msg : String)
deriving DecidableEq

/-- The `try` body of one `decimal_precision` column, parametrized over `dc`,
the post-decimal-point digit count of one rendered cell
(`len(str(x).split(".")[1]) if "." in str(x) else 0` in the source).
Python's binary-float string rendering (positional versus scientific
notation, trailing `.0`) is not reproduced here, so `dc` is kept abstract
and the C1 theorems are proved for every `dc`; the isolation property they
state does not depend on the counts.  `df[col]` raises `KeyError` on an
absent column; an empty column after `dropna` yields the `"No data"` entry;
otherwise the sorted distinct decimal-place counts, with status `"Issue"`
iff more than 3 distinct counts appear. -/
def dpBody (dc : Cell → ℕ) (df : Df) (c : String) : Except String DPEntry :=
  match df.get c with
  | none => .error "KeyError"
  | some col =>
    let clean := col.filter (fun x => !x.isMissing)
    if clean.isEmpty then .ok (.entry [] "No data")
    else
      let uniq := (clean.map dc).dedup.insertionSort (· ≤ ·)
      .ok (.entry uniq (if 3 < uniq.length then "Issue" else "OK"))

/-- `PrecisionQualityService.decimal_precision`: the per-column loop wraps
each column's body in `try/except`, recording `{"error": msg, "status":
"Error"}` for the offending column and continuing with the others. -/
def decimal_precision (dc : Cell → ℕ) (df : Df) (cols : List String) :
    List (String × DPEntry) :=
  cols.map (fun c => (c, match dpBody dc df c with
    | .ok e => e
    | .error m => .err m))

structure OutRec where
  outlierPct : ℚ
  status : String
deriving DecidableEq

def cellLtP (x : Cell) (b : PFloat) : Bool :=
  match x, b with
  | .num v, .fin l => decide (v < l)
  | _, _ => false

def cellGtP (x : Cell) (b : PFloat) : Bool :=
  match x, b with
  | .num v, .fin u => decide (u < v)
  | _, _ => false

/-- One column of `StatisticalQualityService.outlier_score` (Tukey IQR):
`df[col]` on an absent column raises `KeyError` (uncaught); bounds
`Q1 - 1.5*IQR` and `Q3 + 1.5*IQR` (NaN bounds from a column without numeric
values make every comparison false, count 0); then
`percent = (len(outliers) / len(df)) * 100` divides two Python `int`
lengths, so a zero-row table raises `ZeroDivisionError` (uncaught);
otherwise the ratio is a finite number, reported rounded to 2 decimals with
status `"Issue"` iff the unrounded percentage exceeds 5. -/
def outlierColBody (df : Df) (c : String) : Except String OutRec :=
  match df.get c with
  | none => .error "KeyError"
  | some col =>
    let vals := col.filterMap Cell.toNum
    let q1 := quantileQ vals (1/4)
    let q3 := quantileQ vals (3/4)
    let iqr := q3.subP q1
    let lower := q1.subP (iqr.mulQ (3/2))
    let upper := q3.addP (iqr.mulQ (3/2))
    let outliers := col.countP (fun x => cellLtP x lower || cellGtP x upper)
    if df.rowCount = 0 then .error "ZeroDivisionError"
    else
      let pct : ℚ := ((outliers : ℕ) : ℚ) / ((df.rowCount : ℕ) : ℚ) * 100
      .ok { outlierPct := round2 pct, status := if 5 < pct then "Issue" else "OK" }

/-- `StatisticalQualityService.outlier_score`: the per-column loop has no
exception handling, so a raise in any column aborts the whole operation. -/
def outlier_score (df : Df) (cols : List String) : Except String (List (String × OutRec)) :=
  match cols with
  | [] => .ok []
  | c :: rest =>
    match outlierColBody df c with
    | .error m => .error m
    | .ok r => (outlier_score df rest).map (fun l => (c, r) :: l)

/-- C1 (amended): per-column failure isolation is not universal across the
metric operations.  For `decimal_precision` it holds as the claim states
(for every decimal-count rendering `dc`): the loop always produces exactly
one entry per requested column, and a column whose computation raises
(here: an absent column name, whose `df[col]` raises `KeyError`) gets the
`{"status": "Error", "error": msg}` marker while all other columns' results
are still produced.  For `outlier_score`, whose loop has no per-column
exception handling, the same exception aborts the whole operation — see the
counterexample. -/
theorem c1_amended :
    (∀ (dc : Cell → ℕ) (df : Df) (cols : List String),
      (decimal_precision dc df cols).map Prod.fst = cols) ∧
    (∀ (dc : Cell → ℕ) (df : Df) (cols : List String) (c : String),
      c ∈ cols → df.get c = none →
      (c, DPEntry.err "KeyError") ∈ decimal_precision dc df cols) := by
  constructor
  · intro dc df cols
    unfold decimal_precision
    rw [List.map_map]
    simp [Function.comp_def]
  · intro dc df cols c hc hget
    unfold decimal_precision
    apply List.mem_map.mpr
    refine ⟨c, hc, ?_⟩
    unfold dpBody
    rw [hget]

/-- C1 (witness): `decimal_precision` over the columns `["x", "a"]` of a
table having only column `a` (any decimal-count rendering, here the constant
count): the absent column `x` gets the `"Error"` marker while the present
column still gets its entry. -/
theorem c1_witness :
    ("x", DPEntry.err "KeyError") ∈
      decimal_precision (fun _ => 0) ⟨[("a", [Cell.num 1])]⟩ ["x", "a"] :=
  c1_amended.2 (fun _ => 0) ⟨[("a", [Cell.num 1])]⟩ ["x", "a"] "x" (by decide) rfl

/-- C1 (counterexample): `outlier_score` over the columns `["a", "bad"]` of a
table having only column `a`: the `KeyError` raised while computing column
`"bad"` aborts the whole operation — no result is produced for column `"a"`
either, refuting the claim that for every per-column metric operation the
offending column is recorded as an error marker and the other columns'
results are still produced. -/
theorem c1_counterexample :
    outlier_score ⟨[("a", [Cell.num 1])]⟩ ["a", "bad"] = .error "KeyError" := rfl

/- ### Temporal Quality: temporal_continuity (temporal_quality_service.py, lines 34-51) -/

structure TCRec where
  continuityPct : ℚ
  status : String
deriving DecidableEq

/-- `pd.to_datetime(df[col], errors='coerce').dropna().sort_values()`. -/
def tcParsed (col : Col) : List ℚ := sortQ (col.filterMap parseDT)

/-- `TemporalQualityService.temporal_continuity`, one column: fewer than 2
parsed timestamps → continuity 0, `"Issue"`; otherwise successive gaps of the
sorted values, `gap_ratio = (diffs > median*2).mean()` **when the median gap
is positive, else 0** (the source's `if median_gap > 0 else 0` guard), and
`continuity = round((1 - gap_ratio)*100, 2)`, status `"Issue"` iff below 88. -/
def temporal_continuity_col (col : Col) : TCRec :=
  let parsed := tcParsed col
  if parsed.length < 2 then { continuityPct := 0, status := "Issue" }
  else
    let diffs := succDiffs parsed
    let med := if 0 < diffs.length then medianQ diffs else 0
    let ratio : ℚ := if 0 < med then
        ((diffs.countP (fun d => decide (med * 2 < d)) : ℕ) : ℚ) / ((diffs.length : ℕ) : ℚ)
      else 0
    let cont := round2 ((1 - ratio) * 100)
    { continuityPct := cont, status := if cont < 88 then "Issue" else "OK" }

/-- Modelled from the spec's words for C9 (refinement reference): sort the
parsed values, take successive gaps, and report
`continuity% = 100 * (1 - fraction of gaps exceeding 2 * median gap)` with no
positive-median guard; `"Issue"` iff below 88; fewer than 2 parsed
timestamps → 0, `"Issue"`. -/
def temporal_continuity_claim (col : Col) : TCRec :=
  let parsed := tcParsed col
  if parsed.length < 2 then { continuityPct := 0, status := "Issue" }
  else
    let diffs := succDiffs parsed
    let ratio : ℚ := ((diffs.countP (fun d => decide (medianQ diffs * 2 < d)) : ℕ) : ℚ) /
      ((diffs.length : ℕ) : ℚ)
    let cont := round2 ((1 - ratio) * 100)
    { continuityPct := cont, status := if cont < 88 then "Issue" else "OK" }

theorem succDiffs_length_pos (col : Col) (h2 : 2 ≤ (tcParsed col).length) :
    0 < (succDiffs (tcParsed col)).length := by
  unfold succDiffs
  rw [List.length_map, List.length_zip, List.length_tail]
  omega

/-- C9 (amended): `temporal_continuity` reports continuity 0 with status
`"Issue"` for fewer than 2 parseable timestamps, and otherwise matches the
claimed formula `continuity% = 100*(1 - fraction of gaps exceeding 2*median
gap)` whenever the median gap is positive; but when the median gap is zero
(at least half the sorted values repeat), the code takes the oversized-gap
fraction to be 0 and reports continuity 100 with status `"OK"` even if
oversized gaps exist — see the counterexample. -/
theorem c9_amended (col : Col) :
    ((tcParsed col).length < 2 ∨ 0 < medianQ (succDiffs (tcParsed col)) →
      temporal_continuity_col col = temporal_continuity_claim col) ∧
    (2 ≤ (tcParsed col).length → medianQ (succDiffs (tcParsed col)) ≤ 0 →
      temporal_continuity_col col = { continuityPct := 100, status := "OK" }) := by
  constructor
  · intro h
    by_cases hlen : (tcParsed col).length < 2
    · unfold temporal_continuity_col temporal_continuity_claim
      rw [if_pos hlen, if_pos hlen]
    · have h2 : 2 ≤ (tcParsed col).length := not_lt.mp hlen
      have hmed : 0 < medianQ (succDiffs (tcParsed col)) := h.resolve_left hlen
      have hd := succDiffs_length_pos col h2
      unfold temporal_continuity_col temporal_continuity_claim
      rw [if_neg hlen, if_neg hlen]
      simp only [if_pos hd, if_pos hmed]
  · intro h2 hmed
    have hd := succDiffs_length_pos col h2
    unfold temporal_continuity_col
    rw [if_neg (not_lt.mpr h2)]
    simp only [if_pos hd]
    rw [if_neg (not_lt.mpr hmed)]
    norm_num [round2_hundred]

/-- C9 (counterexample): the column `[t, t, t, t+100]` (three identical
timestamps then one 100 seconds later) has gaps `[0, 0, 100]` with median 0;
one of the three gaps exceeds `2 * median = 0`, so the claimed formula gives
`continuity% = round(100*(1 - 1/3), 2) = 66.67` with status `"Issue"`, but
the code reports continuity 100 with status `"OK"`. -/
theorem c9_counterexample :
    temporal_continuity_col [Cell.dtv 0, Cell.dtv 0, Cell.dtv 0, Cell.dtv 100]
        = { continuityPct := 100, status := "OK" } ∧
    temporal_continuity_claim [Cell.dtv 0, Cell.dtv 0, Cell.dtv 0, Cell.dtv 100]
        = { continuityPct := 6667/100, status := "Issue" } ∧
    (100 : ℚ) ≠ 6667/100 := by
  have h1 : tcParsed [Cell.dtv 0, Cell.dtv 0, Cell.dtv 0, Cell.dtv 100]
      = [0, 0, 0, 100] := by
    norm_num [tcParsed, sortQ, parseDT, List.filterMap_cons, List.insertionSort,
      List.orderedInsert]
  have h2 : succDiffs [(0:ℚ), 0, 0, 100] = [0, 0, 100] := by
    norm_num [succDiffs]
  have h3 : medianQ [(0:ℚ), 0, 100] = 0 := by
    norm_num [medianQ, sortQ, List.insertionSort, List.orderedInsert]
  have h4 : ([(0:ℚ), 0, 100].countP (fun d => decide ((0:ℚ) * 2 < d)) : ℕ) = 1 := by
    norm_num [List.countP_cons]
  have h5 : round2 ((200:ℚ)/3) = 6667/100 := by
    unfold round2
    have hfl : ⌊(200:ℚ)/3 * 100⌋ = 6666 := by
      rw [Int.floor_eq_iff]
      norm_num
    rw [roundHE_of_floor_gt_half _ 6666 hfl (by push_cast; norm_num)]
    norm_num
  refine ⟨?_, ?_, by norm_num⟩
  · unfold temporal_continuity_col
    rw [h1]
    norm_num [h2, h3, round2_hundred]
  · unfold temporal_continuity_claim
    rw [h1]
    simp only [h2, h3]
    norm_num [h4]
    refine ⟨h5, fun hc => absurd (h5 ▸ hc) (by norm_num)⟩

/-- C9 (witness): the amended theorem applied to the column
`[t, t+10, t+20]` (positive median gap 10, no oversized gap). -/
theorem c9_witness :
    temporal_continuity_col [Cell.dtv 0, Cell.dtv 10, Cell.dtv 20]
      = temporal_continuity_claim [Cell.dtv 0, Cell.dtv 10, Cell.dtv 20] :=
  (c9_amended [Cell.dtv 0, Cell.dtv 10, Cell.dtv 20]).1
    (Or.inr (by
      have h1 : tcParsed [Cell.dtv 0, Cell.dtv 10, Cell.dtv 20] = [0, 10, 20] := by
        norm_num [tcParsed, sortQ, parseDT, List.filterMap_cons, List.insertionSort,
          List.orderedInsert]
      rw [h1]
      have h2 : succDiffs [(0:ℚ), 10, 20] = [10, 10] := by norm_num [succDiffs]
      rw [h2]
      norm_num [medianQ, sortQ, List.insertionSort, List.orderedInsert]))

/- ### Core Quality: timeliness (core_quality_service.py, lines 50-63)
     and Temporal Quality: freshness_score (temporal_quality_service.py, lines 104-121) -/

/-- One cell under a successful whole-column `pd.to_datetime`: missing stays
NaT, parseable values become timestamps. -/
def convCell : Cell → Cell
  | .missing => .missing
  | c =>
    match parseDT c with
    | some t => .dtv t
    | none => c

/-- `pd.to_datetime(df[col], errors='ignore')`: if every non-missing cell
parses, the converted column; otherwise (some value would raise) the input is
returned unchanged. -/
def to_datetime_ignore (col : Col) : Col :=
  if col.all (fun x => x.isMissing || (parseDT x).isSome) then col.map convCell else col

/-- `df[col].dtype == 'datetime64[ns]'`: every cell is a timestamp or NaT. -/
def isDtDtype (col : Col) : Bool :=
  col.all (fun x => match x with
    | .dtv _ => true
    | .missing => true
    | _ => false)

structure TimRec where
  large_gaps : ℕ
  status : String
deriving DecidableEq

/-- The per-column entry of `timeliness` after the conversion attempt: no
entry unless the column has datetime dtype and a nonempty gap series;
otherwise the count of gaps exceeding 3x the median gap, status `"Issue"`
iff any. -/
def timelinessEntry (c : String) (col : Col) : List (String × TimRec) :=
  if isDtDtype col then
    let gaps := succDiffs (sortQ (col.filterMap Cell.getDt))
    if gaps.isEmpty then []
    else
      let lg := gaps.countP (fun g => decide (medianQ gaps * 3 < g))
      [(c, { large_gaps := lg, status := if 0 < lg then "Issue" else "OK" })]
  else []

/-- `CoreQualityService.timeliness`: the loop assigns
`df[col] = pd.to_datetime(df[col], errors='ignore')`, MUTATING the input
dataframe, which is therefore threaded through and returned alongside the
entries.  `df[col]` on an absent column raises `KeyError` (uncaught). -/
def timeliness (df : Df) (cols : List String) :
    Except String (List (String × TimRec) × Df) :=
  match cols with
  | [] => .ok ([], df)
  | c :: rest =>
    match df.get c with
    | none => .error "KeyError"
    | some col =>
      (timeliness (df.set c (to_datetime_ignore col)) rest).map
        (fun p => (timelinessEntry c (to_datetime_ignore col) ++ p.1, p.2))

theorem convCell_idem (x : Cell) : convCell (convCell x) = convCell x := by
  cases x <;> rfl

theorem to_datetime_ignore_idem (col : Col) :
    to_datetime_ignore (to_datetime_ignore col) = to_datetime_ignore col := by
  unfold to_datetime_ignore
  by_cases h : col.all (fun x => x.isMissing || (parseDT x).isSome)
  · simp only [if_pos h]
    have hall2 : (col.map convCell).all (fun x => x.isMissing || (parseDT x).isSome)
        = true := by
      rw [List.all_map]
      apply List.all_eq_true.mpr
      intro x hx
      have hx' := List.all_eq_true.mp h x hx
      cases x with
      | missing => simp [convCell, Cell.isMissing, Function.comp]
      | num q => simp [convCell, parseDT, Function.comp]
      | dtv t => simp [convCell, parseDT, Function.comp]
      | txt s => simp [Cell.isMissing, parseDT] at hx'
    rw [if_pos hall2, List.map_map]
    simp only [Function.comp_def, convCell_idem]
  · simp only [if_neg h]

theorem getA_setA_self (l : List (String × Col)) (c : String) (v : Col) :
    getA (setA l c v) c = some v := by
  induction l with
  | nil => simp [setA, getA]
  | cons p rest ih =>
    rcases p with ⟨k, w⟩
    by_cases h : k = c
    · simp [setA, getA, h]
    · simp [setA, getA, h, ih]

theorem getA_setA_ne (l : List (String × Col)) (c c' : String) (v : Col) (h : c ≠ c') :
    getA (setA l c v) c' = getA l c' := by
  induction l with
  | nil => simp [setA, getA, h]
  | cons p rest ih =>
    rcases p with ⟨k, w⟩
    by_cases hk : k = c
    · subst hk
      simp [setA, getA, h]
    · simp [setA, getA, hk, ih]

theorem setA_getA_self (l : List (String × Col)) (c : String) (v : Col)
    (h : getA l c = some v) : setA l c v = l := by
  induction l with
  | nil => simp [getA] at h
  | cons p rest ih =>
    rcases p with ⟨k, w⟩
    by_cases hk : k = c
    · simp only [getA, if_pos hk] at h
      simp only [setA, if_pos hk]
      rw [Option.some_inj.mp h, hk]
    · simp only [getA, if_neg hk] at h
      simp only [setA, if_neg hk]
      rw [ih h]

theorem Df.get_set_self (df : Df) (c : String) (v : Col) : (df.set c v).get c = some v :=
  getA_setA_self df.cols c v

theorem Df.get_set_ne (df : Df) (c c' : String) (v : Col) (h : c ≠ c') :
    (df.set c v).get c' = df.get c' :=
  getA_setA_ne df.cols c c' v h

theorem Df.set_get_self (df : Df) (c : String) (v : Col) (h : df.get c = some v) :
    df.set c v = df := by
  show Df.mk (setA df.cols c v) = df
  rw [setA_getA_self df.cols c v h]

theorem timeliness_stable (cols : List String) (df : Df) (r : List (String × TimRec))
    (df1 : Df) (h : timeliness df cols = .ok (r, df1)) (k : String) (hk : k ∉ cols) :
    df1.get k = df.get k := by
  induction cols generalizing df r with
  | nil =>
    simp only [timeliness, Except.ok.injEq, Prod.mk.injEq] at h
    rw [← h.2]
  | cons c rest ih =>
    have hkc : k ≠ c := fun hh => hk (hh ▸ List.mem_cons_self c rest)
    have hkrest : k ∉ rest := fun hh => hk (List.mem_cons_of_mem c hh)
    unfold timeliness at h
    split at h
    · simp at h
    · rename_i col hget
      cases hrec : timeliness (df.set c (to_datetime_ignore col)) rest with
      | error e =>
        rw [hrec] at h
        simp [Except.map] at h
      | ok p =>
        rw [hrec] at h
        simp only [Except.map, Except.ok.injEq, Prod.mk.injEq] at h
        have hok : timeliness (df.set c (to_datetime_ignore col)) rest = .ok (p.1, df1) := by
          rw [hrec, ← h.2]
        have hstep : df1.get k = (df.set c (to_datetime_ignore col)).get k :=
          ih (df.set c (to_datetime_ignore col)) p.1 hok hkrest
        rw [hstep]
        exact Df.get_set_ne df c k (to_datetime_ignore col) (Ne.symm hkc)

theorem timeliness_cons_some (df : Df) (c : String) (cols : List String) (col : Col)
    (hget : df.get c = some col) :
    timeliness df (c :: cols) =
      (timeliness (df.set c (to_datetime_ignore col)) cols).map
        (fun p => (timelinessEntry c (to_datetime_ignore col) ++ p.1, p.2)) := by
  conv_lhs => unfold timeliness
  rw [hget]

/-- C3 (amended): `timeliness` mutates its input dataframe (the converted
datetime columns are written back), but running it twice in succession is
stable: the first run succeeds (given present, duplicate-free column names)
returning entries `r` and the mutated dataframe `df1`, and the second run on
`df1` returns exactly the same entries and leaves `df1` unchanged — because
the in-place `pd.to_datetime(..., errors='ignore')` conversion is
idempotent.  (Determinism given a fixed clock; `freshness_score` reads the
ambient clock and is NOT a function of the table alone — see the
counterexample.) -/
theorem c3_amended (df : Df) (cols : List String) (hnd : cols.Nodup)
    (hp : ∀ c ∈ cols, (df.get c).isSome = true) :
    ∃ r df1, timeliness df cols = .ok (r, df1) ∧ timeliness df1 cols = .ok (r, df1) := by
  induction cols generalizing df with
  | nil => exact ⟨[], df, rfl, rfl⟩
  | cons c rest ih =>
    obtain ⟨col, hget⟩ := Option.isSome_iff_exists.mp (hp c (List.mem_cons_self c rest))
    have hnd' : rest.Nodup := (List.nodup_cons.mp hnd).2
    have hcr : c ∉ rest := (List.nodup_cons.mp hnd).1
    have hp' : ∀ c' ∈ rest, ((df.set c (to_datetime_ignore col)).get c').isSome = true := by
      intro c' hc'
      by_cases hcc : c = c'
      · subst hcc
        rw [Df.get_set_self]
        rfl
      · rw [Df.get_set_ne df c c' _ hcc]
        exact hp c' (List.mem_cons_of_mem c hc')
    obtain ⟨r, df1, h1, h2⟩ := ih (df.set c (to_datetime_ignore col)) hnd' hp'
    refine ⟨timelinessEntry c (to_datetime_ignore col) ++ r, df1, ?_, ?_⟩
    · rw [timeliness_cons_some df c rest col hget, h1]
      rfl
    · have hdf1c : df1.get c = some (to_datetime_ignore col) := by
        rw [timeliness_stable rest (df.set c (to_datetime_ignore col)) r df1 h1 c hcr]
        exact Df.get_set_self df c (to_datetime_ignore col)
      rw [timeliness_cons_some df1 c rest (to_datetime_ignore col) hdf1c,
        to_datetime_ignore_idem col,
        Df.set_get_self df1 c (to_datetime_ignore col) hdf1c, h2]
      rfl

/-- C3 (witness): the amended theorem applied to a table with one datetime
column of two raw timestamps. -/
theorem c3_witness :
    ∃ r df1,
      timeliness ⟨[("t", [Cell.dtv 0, Cell.dtv 10])]⟩ ["t"] = .ok (r, df1) ∧
      timeliness df1 ["t"] = .ok (r, df1) :=
  c3_amended ⟨[("t", [Cell.dtv 0, Cell.dtv 10])]⟩ ["t"] (by decide) (by decide)

/-- `Series.max()` skipping missing values: `None` on an all-missing/empty
series (pandas NaT). -/
def listMaxQ : List ℚ → Option ℚ
  | [] => none
  | x :: xs =>
    match listMaxQ xs with
    | none => some x
    | some m => some (max x m)

structure FreshRec where
  freshnessPct : ℚ
  status : String
deriving DecidableEq

/-- `TemporalQualityService.freshness_score`: the source reads
`now = datetime.now()` from the ambient clock; the embedding surfaces that
hidden input as the explicit `now` parameter (epoch seconds).  Per column:
`latest = parsed.max()`; no parsed value → score 0; otherwise
`score = max(0, 100 - (now - latest).days)` where `.days` floors; the score
is reported rounded and the status is `"Issue"` iff it is below 85. -/
def freshness_score (now : ℚ) (df : Df) (cols : List String) :
    Except String (List (String × FreshRec)) :=
  match cols with
  | [] => .ok []
  | c :: rest =>
    match df.get c with
    | none => .error "KeyError"
    | some col =>
      let entry : FreshRec :=
        match listMaxQ (col.filterMap parseDT) with
        | none => { freshnessPct := round2 0, status := if (0:ℚ) < 85 then "Issue" else "OK" }
        | some latest =>
          let score : ℚ := max 0 (100 - (⌊(now - latest) / 86400⌋ : ℚ))
          { freshnessPct := round2 score, status := if score < 85 then "Issue" else "OK" }
      (freshness_score now df rest).map (fun l => (c, entry) :: l)

/-- C3 (counterexample): `freshness_score` is not a function of the table and
settings alone — it depends on the hidden clock.  On the same one-column
table (latest timestamp at epoch 0), running at `now = 0` yields score 100
(`"OK"`) while running 50 days later yields score 50 (`"Issue"`), refuting
"no dependence on hidden state such as the current clock" for the metric
operations. -/
theorem c3_counterexample :
    freshness_score 0 ⟨[("t", [Cell.dtv 0])]⟩ ["t"] ≠
      freshness_score (50 * 86400) ⟨[("t", [Cell.dtv 0])]⟩ ["t"] := by
  have e1 : freshness_score 0 ⟨[("t", [Cell.dtv 0])]⟩ ["t"]
      = .ok [("t", { freshnessPct := 100, status := "OK" })] := by
    unfold freshness_score
    norm_num [freshness_score, Df.get, getA, parseDT, listMaxQ, List.filterMap_cons,
      round2_hundred, Except.map]
  have e2 : freshness_score (50 * 86400) ⟨[("t", [Cell.dtv 0])]⟩ ["t"]
      = .ok [("t", { freshnessPct := 50, status := "Issue" })] := by
    have h50 : round2 (50 : ℚ) = 50 := by
      have := round2_intCast 50
      push_cast at this
      exact this
    unfold freshness_score
    norm_num [freshness_score, Df.get, getA, parseDT, listMaxQ, List.filterMap_cons,
      Except.map, h50]
  rw [e1, e2]
  intro h
  simp only [Except.ok.injEq, List.cons.injEq, Prod.mk.injEq, FreshRec.mk.injEq] at h
  exact absurd h.1.2.1 (by norm_num)
